import Mathlib

/-!
# Verification of `calculator.py`

A shallow embedding of the restricted arithmetic-expression evaluator in
`src/calculator.py`.  The Python program parses an input string with the host
`ast` module (`ast.parse(expr, mode='eval')`), rejects attribute access,
subscription and string literals by walking the parsed tree, and then evaluates
the tree recursively against whitelist tables of operators and names.

The embedding models:
* Python numeric values (`int`, `bool` — a subtype of `int` in Python —, and
  `float`), tuples, and host callables;
* the fragment of the `ast` node language that `ast.parse` can produce for
  expression input, including the forbidden constructs (attribute access,
  subscription, string constants, comparison/boolean/bitwise operators);
* the host parser (`ast.parse` in `mode='eval'`) for the token/grammar fragment
  exercised by the program: numbers, identifiers, string literals, unary and
  binary operators with Python precedence, calls with positional and keyword
  arguments, attribute access, subscription, comparison chains, `and`/`or`,
  and top-level comma (tuple) expressions;
* the functions `_safe_eval` and `evaluate` of the source, translated clause by
  clause.

Python floats are IEEE-754 doubles; every finite double is an exact rational,
which this model represents by an (unnormalised) numerator/denominator pair.
Rounding of arithmetic results to double precision and overflow to infinity are
not modelled; every claim below evaluates float arithmetic only at inputs whose
results are exactly representable.
-/

/-- Exact rational carrier for finite Python float values.  `den` is positive
for every value actually constructed; the pair is kept unnormalised so that all
arithmetic is plain integer arithmetic. -/
structure PyRat where
  num : Int
  den : Nat
deriving Repr, DecidableEq

/-- `float.is_integer`: the value has no fractional part. -/
def PyRat.isInteger (q : PyRat) : Bool := Int.emod q.num (q.den : Int) == 0

def PyRat.isZero (q : PyRat) : Bool := q.num == 0

def PyRat.neg (q : PyRat) : PyRat := ⟨-q.num, q.den⟩

def PyRat.add (a b : PyRat) : PyRat :=
  ⟨a.num * (b.den : Int) + b.num * (a.den : Int), a.den * b.den⟩

def PyRat.sub (a b : PyRat) : PyRat := a.add b.neg

def PyRat.mul (a b : PyRat) : PyRat := ⟨a.num * b.num, a.den * b.den⟩

/-- Exact division; meaningful only when `b` is nonzero (callers check). -/
def PyRat.div (a b : PyRat) : PyRat :=
  ⟨a.num * (b.den : Int) * (if b.num < 0 then -1 else 1), a.den * b.num.natAbs⟩

/-- `⌊a / b⌋` as an integer; meaningful only when `b` is nonzero. -/
def PyRat.fdivInt (a b : PyRat) : Int :=
  Int.fdiv (a.num * (b.den : Int)) (b.num * (a.den : Int))

def PyRat.ltZero (q : PyRat) : Bool := q.num < 0

/-- `int(x)` truncation toward zero. -/
def PyRat.trunc (q : PyRat) : Int := Int.tdiv q.num (q.den : Int)

def PyRat.ofInt (n : Int) : PyRat := ⟨n, 1⟩

/-- `q ^ e` for an integer exponent `e` (base nonzero when `e < 0`). -/
def PyRat.powInt (q : PyRat) (e : Int) : PyRat :=
  if 0 ≤ e then ⟨q.num ^ e.toNat, q.den ^ e.toNat⟩
  else
    let k := (-e).toNat
    ⟨(if q.num < 0 ∧ k % 2 = 1 then -((q.den ^ k : Nat) : Int) else ((q.den ^ k : Nat) : Int)),
      q.num.natAbs ^ k⟩

/-- A Python float: a finite (exact rational) value or one of the IEEE
specials, which enter the program only through the whitelisted constants
`inf` and `nan`. -/
inductive PyFloat
  | finite (q : PyRat)
  | inf
  | ninf
  | nan
deriving Repr, DecidableEq

def PyFloat.isZero : PyFloat → Bool
  | .finite q => q.isZero
  | _ => false

/-- `x < 0` on a float (`nan` compares false). -/
def PyFloat.isNeg : PyFloat → Bool
  | .finite q => q.ltZero
  | .ninf => true
  | _ => false

/-- `float.is_integer` (false on the specials). -/
def PyFloat.isIntegral : PyFloat → Bool
  | .finite q => q.isInteger
  | _ => false

def PyFloat.neg : PyFloat → PyFloat
  | .finite q => .finite q.neg
  | .inf => .ninf
  | .ninf => .inf
  | .nan => .nan

def PyFloat.add : PyFloat → PyFloat → PyFloat
  | .nan, _ => .nan
  | _, .nan => .nan
  | .inf, .ninf => .nan
  | .ninf, .inf => .nan
  | .inf, _ => .inf
  | _, .inf => .inf
  | .ninf, _ => .ninf
  | _, .ninf => .ninf
  | .finite a, .finite b => .finite (a.add b)

def PyFloat.sub (a b : PyFloat) : PyFloat := a.add b.neg

def PyFloat.mul : PyFloat → PyFloat → PyFloat
  | .nan, _ => .nan
  | _, .nan => .nan
  | .finite a, .finite b => .finite (a.mul b)
  | x, y =>
    if x.isZero || y.isZero then .nan
    else if x.isNeg == y.isNeg then .inf else .ninf

/-- True division; meaningful only when the divisor is not a (finite) zero —
the caller raises `ZeroDivisionError` in that case, as CPython does. -/
def PyFloat.div : PyFloat → PyFloat → PyFloat
  | .nan, _ => .nan
  | _, .nan => .nan
  | .finite a, .finite b => .finite (a.div b)
  | .inf, .finite b => if b.ltZero then .ninf else .inf
  | .ninf, .finite b => if b.ltZero then .inf else .ninf
  | .finite _, .inf => .finite ⟨0, 1⟩
  | .finite _, .ninf => .finite ⟨0, 1⟩
  | _, _ => .nan

/-- Floor division on floats (divisor nonzero).  Results involving the IEEE
specials are approximated by `nan`; no claim involves them. -/
def PyFloat.floordiv : PyFloat → PyFloat → PyFloat
  | .finite a, .finite b => .finite ⟨a.fdivInt b, 1⟩
  | _, _ => .nan

/-- Modulo on floats (divisor nonzero), with Python's floor-division sign
convention `a - b*⌊a/b⌋`.  Specials approximated by `nan`. -/
def PyFloat.fmod : PyFloat → PyFloat → PyFloat
  | .finite a, .finite b => .finite (a.sub (b.mul ⟨a.fdivInt b, 1⟩))
  | _, _ => .nan

/-- A Python runtime value as produced by the evaluator: a number, a tuple, or
a whitelisted host callable (identified by its whitelist key). -/
inductive Value
  | int (n : Int)
  | bool (b : Bool)
  | float (x : PyFloat)
  | tuple (elts : List Value)
  | func (fname : String)
deriving Repr

/-- The Python exceptions the program can produce: `ValueError` (raised by the
program itself and for re-wrapped syntax errors), `ZeroDivisionError` and
`TypeError` (raised by host arithmetic and propagated uncaught). -/
inductive PyErr
  | valueError (msg : String)
  | zeroDivisionError (msg : String)
  | typeError (msg : String)
deriving Repr, DecidableEq

/-- Numeric view of a value: Python `bool` is a subtype of `int`, so booleans
coerce to 0/1 wherever a number is required. -/
inductive NumV
  | i (n : Int)
  | f (x : PyFloat)
deriving Repr, DecidableEq

def Value.toNum : Value → Option NumV
  | .int n => some (.i n)
  | .bool b => some (.i (if b then 1 else 0))
  | .float x => some (.f x)
  | _ => none

def NumV.toFloat : NumV → PyFloat
  | .i n => .finite ⟨n, 1⟩
  | .f x => x

def NumV.toValue : NumV → Value
  | .i n => .int n
  | .f x => .float x

/-- `x < 0` on a value, as used by the factorial guard (queried only after
`float(x)` succeeded, hence only on numerics). -/
def Value.ltZero (v : Value) : Bool :=
  match v.toNum with
  | some (.i n) => decide (n < 0)
  | some (.f x) => x.isNeg
  | none => false

/-- `int(x)` truncation for numeric values (queried only on integral values). -/
def Value.intTrunc : Value → Int
  | .int n => n
  | .bool b => if b then 1 else 0
  | .float (.finite q) => q.trunc
  | _ => 0

def typeErrBin (opName : String) : Except PyErr Value :=
  .error (.typeError ("unsupported operand type(s) for " ++ opName))

/-- Host `operator.add`: numeric addition (booleans coerce to ints, any float
makes the result a float); tuple concatenation; otherwise `TypeError`. -/
def pyAdd (a b : Value) : Except PyErr Value :=
  match a.toNum, b.toNum with
  | some (.i m), some (.i n) => .ok (.int (m + n))
  | some x, some y => .ok (.float (PyFloat.add x.toFloat y.toFloat))
  | _, _ =>
    match a, b with
    | .tuple xs, .tuple ys => .ok (.tuple (xs ++ ys))
    | _, _ => typeErrBin "+"

/-- Host `operator.sub`. -/
def pySub (a b : Value) : Except PyErr Value :=
  match a.toNum, b.toNum with
  | some (.i m), some (.i n) => .ok (.int (m - n))
  | some x, some y => .ok (.float (PyFloat.sub x.toFloat y.toFloat))
  | _, _ => typeErrBin "-"

/-- Host `operator.mul`, including tuple repetition by an integer. -/
def pyMul (a b : Value) : Except PyErr Value :=
  match a.toNum, b.toNum with
  | some (.i m), some (.i n) => .ok (.int (m * n))
  | some x, some y => .ok (.float (PyFloat.mul x.toFloat y.toFloat))
  | _, _ =>
    match a, b with
    | .tuple xs, .int n => .ok (.tuple (List.flatten (List.replicate n.toNat xs)))
    | .tuple xs, .bool c => .ok (.tuple (if c then xs else []))
    | .int n, .tuple xs => .ok (.tuple (List.flatten (List.replicate n.toNat xs)))
    | .bool c, .tuple xs => .ok (.tuple (if c then xs else []))
    | _, _ => typeErrBin "*"

/-- Host `operator.truediv`: `/` always produces a float; a zero divisor raises
`ZeroDivisionError` (CPython raises it for float division as well). -/
def pyTrueDiv (a b : Value) : Except PyErr Value :=
  match a.toNum, b.toNum with
  | some (.i m), some (.i n) =>
    if n = 0 then .error (.zeroDivisionError "division by zero")
    else .ok (.float (.finite (PyRat.div ⟨m, 1⟩ ⟨n, 1⟩)))
  | some x, some y =>
    if y.toFloat.isZero then .error (.zeroDivisionError "float division by zero")
    else .ok (.float (PyFloat.div x.toFloat y.toFloat))
  | _, _ => typeErrBin "/"

/-- Host `operator.floordiv`: `//` keeps ints integral, floor semantics. -/
def pyFloorDiv (a b : Value) : Except PyErr Value :=
  match a.toNum, b.toNum with
  | some (.i m), some (.i n) =>
    if n = 0 then .error (.zeroDivisionError "integer division or modulo by zero")
    else .ok (.int (Int.fdiv m n))
  | some x, some y =>
    if y.toFloat.isZero then .error (.zeroDivisionError "float floor division by zero")
    else .ok (.float (PyFloat.floordiv x.toFloat y.toFloat))
  | _, _ => typeErrBin "//"

/-- Host `operator.mod`: `%` with the floor-division sign convention. -/
def pyMod (a b : Value) : Except PyErr Value :=
  match a.toNum, b.toNum with
  | some (.i m), some (.i n) =>
    if n = 0 then .error (.zeroDivisionError "integer division or modulo by zero")
    else .ok (.int (Int.fmod m n))
  | some x, some y =>
    if y.toFloat.isZero then .error (.zeroDivisionError "float modulo")
    else .ok (.float (PyFloat.fmod x.toFloat y.toFloat))
  | _, _ => typeErrBin "%"

/-- Float power.  Exponent zero gives `1.0` (as in CPython, even for `nan`
and `inf` bases); an integral exponent with a finite base is computed exactly;
all other cases (irrational results, special bases) are approximated by a
`nan` placeholder — no claim depends on them. -/
def floatPow (x y : PyFloat) : Except PyErr Value :=
  match y with
  | .finite e =>
    if e.isZero then .ok (.float (.finite ⟨1, 1⟩))
    else if e.isInteger then
      match x with
      | .finite q =>
        if q.isZero && e.ltZero then
          .error (.zeroDivisionError "0.0 cannot be raised to a negative power")
        else .ok (.float (.finite (q.powInt e.trunc)))
      | _ => .ok (.float .nan)
    else .ok (.float .nan)
  | _ => .ok (.float .nan)

/-- Host `operator.pow`: an integer base with a non-negative integer exponent
stays an integer; a negative integer exponent produces a float. -/
def pyPow (a b : Value) : Except PyErr Value :=
  match a.toNum, b.toNum with
  | some (.i m), some (.i n) =>
    if 0 ≤ n then .ok (.int (m ^ n.toNat))
    else if m = 0 then
      .error (.zeroDivisionError "0.0 cannot be raised to a negative power")
    else .ok (.float (.finite (PyRat.powInt ⟨m, 1⟩ n)))
  | some x, some y => floatPow x.toFloat y.toFloat
  | _, _ => typeErrBin "** or pow()"

/-- Host `operator.pos` (unary `+`): note `+True` is the int `1`. -/
def pyPos (a : Value) : Except PyErr Value :=
  match a.toNum with
  | some (.i n) => .ok (.int n)
  | some (.f x) => .ok (.float x)
  | none => .error (.typeError "bad operand type for unary +")

/-- Host `operator.neg` (unary `-`). -/
def pyNeg (a : Value) : Except PyErr Value :=
  match a.toNum with
  | some (.i n) => .ok (.int (-n))
  | some (.f x) => .ok (.float x.neg)
  | none => .error (.typeError "bad operand type for unary -")

/-- Host `float(x)` as used by the factorial guard: numerics convert, anything
else raises `TypeError`. -/
def pyFloatFn (v : Value) : Except PyErr PyFloat :=
  match v.toNum with
  | some x => .ok x.toFloat
  | none => .error (.typeError "float() argument must be a string or a real number")

/-! ## The `ast` node language

The fragment of Python's `ast` that `ast.parse(·, mode='eval')` can produce for
the inputs this program accepts or rejects, including the forbidden constructs.
-/

/-- `ast` binary-operator kinds (`ast.Add`, …); the bitwise kinds are outside
the whitelist `_ALLOWED_BINOPS`. -/
inductive BinKind
  | add | sub | mult | div | floorDiv | mod | pow
  | bitOr | bitXor | bitAnd | lshift | rshift
deriving Repr, DecidableEq

/-- `ast` unary-operator kinds; `invert` (`~`) and `notOp` (`not`) are outside
the whitelist `_ALLOWED_UNARYOPS`. -/
inductive UnaryKind
  | uadd | usub | invert | notOp
deriving Repr, DecidableEq

/-- `ast` comparison-operator kinds. -/
inductive CmpKind
  | lt | gt | le | ge | eq | ne
deriving Repr, DecidableEq

/-- `ast.And` / `ast.Or`. -/
inductive BoolKind
  | andK | orK
deriving Repr, DecidableEq

/-- Payload of an `ast.Constant` node. -/
inductive ConstVal
  | int (n : Int)
  | bool (b : Bool)
  | float (x : PyFloat)
  | str (s : String)
  | noneLit
deriving Repr, DecidableEq

/-- `isinstance(node.value, (int, float))`: in Python `bool` is a subclass of
`int`, so boolean constants pass this check. -/
def ConstVal.isNum : ConstVal → Bool
  | .int _ => true
  | .bool _ => true
  | .float _ => true
  | _ => false

def ConstVal.toValue : ConstVal → Value
  | .int n => .int n
  | .bool b => .bool b
  | .float x => .float x
  | .str _ => .tuple []   -- unreachable: only queried on numeric constants
  | .noneLit => .tuple []

/-- `isinstance(node, ast.Str)`: on Python 3.8–3.11 the deprecated `ast.Str`
alias instance-checks as "a `Constant` whose value is a `str`". -/
def ConstVal.isStr : ConstVal → Bool
  | .str _ => true
  | _ => false

/-- The `ast` expression nodes.  `expression` is the `ast.Expression` root
wrapper; `num` is the legacy `ast.Num` branch of `_safe_eval` (unreachable from
`ast.parse` on Python ≥ 3.8 but present in the source); keyword arguments are
modelled as (argument name, value) pairs. -/
inductive PyAst
  | expression (body : PyAst)
  | constant (v : ConstVal)
  | num (x : NumV)
  | binOp (op : BinKind) (left right : PyAst)
  | unaryOp (op : UnaryKind) (operand : PyAst)
  | call (fn : PyAst) (args : List PyAst) (keywords : List (String × PyAst))
  | name (id : String)
  | tuple (elts : List PyAst)
  | attr (obj : PyAst) (field : String)
  | subscript (obj : PyAst) (index : PyAst)
  | compare (left : PyAst) (ops : List CmpKind) (comparators : List PyAst)
  | boolOp (op : BoolKind) (values : List PyAst)
deriving Repr

/-! ## Whitelist tables

The module-level dictionaries `_ALLOWED_BINOPS`, `_ALLOWED_UNARYOPS` and
`_ALLOWED_NAMES`, modelled as association lists.  They are the only
module-level state `evaluate` touches, and it only ever reads them; the
state-passing embedding below (`evaluateState`) makes that explicit.
Whitelisted callables are modelled as `Value.func` tags; the float constants
`pi`, `e`, `tau` are the exact rationals of the corresponding doubles. -/
structure Tables where
  binops : List (BinKind × (Value → Value → Except PyErr Value))
  unaryops : List (UnaryKind × (Value → Except PyErr Value))
  names : List (String × Value)

def ALLOWED_BINOPS : List (BinKind × (Value → Value → Except PyErr Value)) :=
  [(.add, pyAdd), (.sub, pySub), (.mult, pyMul), (.div, pyTrueDiv),
   (.floorDiv, pyFloorDiv), (.mod, pyMod), (.pow, pyPow)]

def ALLOWED_UNARYOPS : List (UnaryKind × (Value → Except PyErr Value)) :=
  [(.uadd, pyPos), (.usub, pyNeg)]

def ALLOWED_NAMES : List (String × Value) :=
  [("sin", .func "sin"), ("cos", .func "cos"), ("tan", .func "tan"),
   ("asin", .func "asin"), ("acos", .func "acos"), ("atan", .func "atan"),
   ("atan2", .func "atan2"),
   ("sinh", .func "sinh"), ("cosh", .func "cosh"), ("tanh", .func "tanh"),
   ("degrees", .func "degrees"), ("radians", .func "radians"),
   ("sqrt", .func "sqrt"), ("log", .func "log"), ("log10", .func "log10"),
   ("exp", .func "exp"), ("pow", .func "pow"), ("hypot", .func "hypot"),
   ("pi", .float (.finite ⟨884279719003555, 281474976710656⟩)),
   ("e", .float (.finite ⟨6121026514868073, 2251799813685248⟩)),
   ("tau", .float (.finite ⟨884279719003555, 140737488355328⟩)),
   ("inf", .float .inf), ("nan", .float .nan),
   ("factorial", .func "factorial"),
   ("abs", .func "abs"), ("round", .func "round")]

def defaultTables : Tables := ⟨ALLOWED_BINOPS, ALLOWED_UNARYOPS, ALLOWED_NAMES⟩

/-- `callable(v)`: only the whitelisted host functions are callable. -/
def Value.isCallable : Value → Bool
  | .func _ => true
  | _ => false

/-- Model of invoking a whitelisted host callable (`func(*args)` at the end of
`_safe_eval`'s `Call` branch).  The host math library's arity and domain
checking and the numeric values of transcendental results are not modelled —
no claim depends on them; `abs` is modelled exactly as a sample, everything
else returns a placeholder float. -/
def applyHostFunc (fname : String) (args : List Value) : Except PyErr Value :=
  match fname, args with
  | "abs", [.int n] => .ok (.int (Int.ofNat n.natAbs))
  | "abs", [.bool b] => .ok (.int (if b then 1 else 0))
  | "abs", [.float x] => .ok (.float (if x.isNeg then x.neg else x))
  | _, _ => .ok (.float .nan)

/-- The factorial special case of `_safe_eval` (source lines 109–112):
`float(args[0])` may raise `TypeError`; a non-integral or negative value raises
the specific `ValueError`; otherwise `math.factorial(int(args[0]))`. -/
def factorialCheck (args : List Value) : Except PyErr Value :=
  match args with
  | [v] => do
    let f ← pyFloatFn v
    if !f.isIntegral then
      .error (.valueError "factorial() requires a single non-negative integer")
    else if v.ltZero then
      .error (.valueError "factorial() requires a single non-negative integer")
    else
      .ok (.int (Int.ofNat (Nat.factorial v.intTrunc.toNat)))
  | _ => .error (.valueError "factorial() requires a single non-negative integer")

/-- `op_type.__name__` for binary operator nodes, used in error messages. -/
def binKindName : BinKind → String
  | .add => "Add" | .sub => "Sub" | .mult => "Mult" | .div => "Div"
  | .floorDiv => "FloorDiv" | .mod => "Mod" | .pow => "Pow"
  | .bitOr => "BitOr" | .bitXor => "BitXor" | .bitAnd => "BitAnd"
  | .lshift => "LShift" | .rshift => "RShift"

/-- `op_type.__name__` for unary operator nodes. -/
def unaryKindName : UnaryKind → String
  | .uadd => "UAdd" | .usub => "USub" | .invert => "Invert" | .notOp => "Not"

mutual

/-- `_safe_eval` (source lines 60–124), clause by clause, parameterised by the
whitelist tables it reads.  Dictionary `.get` is association-list lookup; an
f-string message is modelled by string concatenation (host `repr` quoting of
names is not reproduced). -/
def safe_evalT (T : Tables) : PyAst → Except PyErr Value
  | .expression body => safe_evalT T body
  | .constant c =>
    if c.isNum then .ok c.toValue
    else .error (.valueError "Constants of this type are not allowed")
  | .num x => .ok x.toValue
  | .binOp op l r =>
    match List.lookup op T.binops with
    | none => .error (.valueError ("Binary operator " ++ binKindName op ++ " is not allowed"))
    | some f => do
      let lv ← safe_evalT T l
      let rv ← safe_evalT T r
      f lv rv
  | .unaryOp op e =>
    match List.lookup op T.unaryops with
    | none => .error (.valueError ("Unary operator " ++ unaryKindName op ++ " is not allowed"))
    | some f => do
      let v ← safe_evalT T e
      f v
  | .call fn args kws =>
    match fn with
    | .name fname =>
      match List.lookup fname T.names with
      | none => .error (.valueError ("Function " ++ fname ++ " is not allowed"))
      | some v =>
        if v.isCallable then do
          let avs ← safe_evalListT T args
          if kws.isEmpty then
            if fname == "factorial" then factorialCheck avs
            else applyHostFunc fname avs
          else .error (.valueError "Keyword arguments are not supported")
        else .error (.valueError ("Function " ++ fname ++ " is not allowed"))
    | _ => .error (.valueError "Only direct function calls are allowed")
  | .name id =>
    match List.lookup id T.names with
    | some v => .ok v
    | none => .error (.valueError ("Name " ++ id ++ " is not allowed"))
  | .tuple elts => do
    let vs ← safe_evalListT T elts
    .ok (.tuple vs)
  | .attr _ _ => .error (.valueError "Unsupported expression")
  | .subscript _ _ => .error (.valueError "Unsupported expression")
  | .compare _ _ _ => .error (.valueError "Unsupported expression")
  | .boolOp _ _ => .error (.valueError "Unsupported expression")

/-- Left-to-right evaluation of a list of argument/element expressions
(the list comprehension / generator in the source). -/
def safe_evalListT (T : Tables) : List PyAst → Except PyErr (List Value)
  | [] => .ok []
  | a :: rest => do
    let v ← safe_evalT T a
    let vs ← safe_evalListT T rest
    .ok (v :: vs)

end

/-- `_safe_eval` with the module's actual tables. -/
def safe_eval : PyAst → Except PyErr Value := safe_evalT defaultTables

/-! ## The forbidden-construct walk

`evaluate` walks the parsed tree (`for node in ast.walk(tree)`) and raises on
the first attribute-access, subscription or string-literal node it sees, before
`_safe_eval` runs.  `ast.walk` is breadth-first; the walk below visits the same
set of nodes in depth-first pre-order — when several forbidden nodes are
present the reported message may therefore differ from CPython's, but whether
some error is raised (all any claim depends on) is identical. -/

/-- The loop body of the walk: the per-node forbidden check
(source lines 137–143). -/
def walkNodeCheck : PyAst → Option PyErr
  | .attr _ _ => some (.valueError "Attribute access is not allowed")
  | .subscript _ _ => some (.valueError "Subscription is not allowed")
  | .constant c =>
    if c.isStr then some (.valueError "String literals are not allowed") else none
  | _ => none

mutual

/-- The walk over the whole parsed structure: first forbidden node wins. -/
def walkCheck : PyAst → Option PyErr
  | .expression body => walkCheck body
  | .constant c => walkNodeCheck (.constant c)
  | .num _ => none
  | .binOp _ l r => (walkCheck l).orElse (fun _ => walkCheck r)
  | .unaryOp _ e => walkCheck e
  | .call fn args kws =>
    ((walkCheck fn).orElse (fun _ => walkCheckList args)).orElse
      (fun _ => walkCheckKws kws)
  | .name _ => none
  | .tuple elts => walkCheckList elts
  | .attr o f => (walkNodeCheck (.attr o f)).orElse (fun _ => walkCheck o)
  | .subscript o i =>
    ((walkNodeCheck (.subscript o i)).orElse (fun _ => walkCheck o)).orElse
      (fun _ => walkCheck i)
  | .compare l _ rs => (walkCheck l).orElse (fun _ => walkCheckList rs)
  | .boolOp _ vs => walkCheckList vs

def walkCheckList : List PyAst → Option PyErr
  | [] => none
  | a :: rest => (walkCheck a).orElse (fun _ => walkCheckList rest)

def walkCheckKws : List (String × PyAst) → Option PyErr
  | [] => none
  | (_, v) :: rest => (walkCheck v).orElse (fun _ => walkCheckKws rest)

end

mutual

/-- Specification-side predicate: the tree contains an attribute-access,
subscription or string-literal node anywhere (the constructs the walk must
reject exhaustively). -/
def hasForbiddenNode : PyAst → Bool
  | .expression body => hasForbiddenNode body
  | .constant c => c.isStr
  | .num _ => false
  | .binOp _ l r => hasForbiddenNode l || hasForbiddenNode r
  | .unaryOp _ e => hasForbiddenNode e
  | .call fn args kws =>
    hasForbiddenNode fn || hasForbiddenNodeList args || hasForbiddenNodeKws kws
  | .name _ => false
  | .tuple elts => hasForbiddenNodeList elts
  | .attr _ _ => true
  | .subscript _ _ => true
  | .compare l _ rs => hasForbiddenNode l || hasForbiddenNodeList rs
  | .boolOp _ vs => hasForbiddenNodeList vs

def hasForbiddenNodeList : List PyAst → Bool
  | [] => false
  | a :: rest => hasForbiddenNode a || hasForbiddenNodeList rest

def hasForbiddenNodeKws : List (String × PyAst) → Bool
  | [] => false
  | (_, v) :: rest => hasForbiddenNode v || hasForbiddenNodeKws rest

end

mutual

/-- Specification-side predicate: the tree contains, anywhere, an operator node
outside the allowed set — a binary operator absent from `_ALLOWED_BINOPS`
(the bitwise kinds), a unary operator absent from `_ALLOWED_UNARYOPS`
(`~`, `not`), a comparison, or a boolean operation. -/
def hasBadOp : PyAst → Bool
  | .expression body => hasBadOp body
  | .constant _ => false
  | .num _ => false
  | .binOp op l r =>
    (List.lookup op ALLOWED_BINOPS).isNone || hasBadOp l || hasBadOp r
  | .unaryOp op e =>
    (List.lookup op ALLOWED_UNARYOPS).isNone || hasBadOp e
  | .call fn args kws => hasBadOp fn || hasBadOpList args || hasBadOpKws kws
  | .name _ => false
  | .tuple elts => hasBadOpList elts
  | .attr o _ => hasBadOp o
  | .subscript o i => hasBadOp o || hasBadOp i
  | .compare _ _ _ => true
  | .boolOp _ _ => true

def hasBadOpList : List PyAst → Bool
  | [] => false
  | a :: rest => hasBadOp a || hasBadOpList rest

def hasBadOpKws : List (String × PyAst) → Bool
  | [] => false
  | (_, v) :: rest => hasBadOp v || hasBadOpKws rest

end

mutual

/-- `_safe_eval` instrumented with the list of whitelisted host functions it
invokes, in invocation order.  The result component coincides with
`safe_eval`; a name is recorded exactly when the source reaches
`math.factorial(...)` or `func(*args)`. -/
def safe_evalTr : PyAst → Except PyErr Value × List String
  | .expression body => safe_evalTr body
  | .constant c =>
    if c.isNum then (.ok c.toValue, [])
    else (.error (.valueError "Constants of this type are not allowed"), [])
  | .num x => (.ok x.toValue, [])
  | .binOp op l r =>
    match List.lookup op ALLOWED_BINOPS with
    | none =>
      (.error (.valueError ("Binary operator " ++ binKindName op ++ " is not allowed")), [])
    | some f =>
      match safe_evalTr l with
      | (.error e, tr) => (.error e, tr)
      | (.ok lv, tr₁) =>
        match safe_evalTr r with
        | (.error e, tr₂) => (.error e, tr₁ ++ tr₂)
        | (.ok rv, tr₂) => (f lv rv, tr₁ ++ tr₂)
  | .unaryOp op e =>
    match List.lookup op ALLOWED_UNARYOPS with
    | none =>
      (.error (.valueError ("Unary operator " ++ unaryKindName op ++ " is not allowed")), [])
    | some f =>
      match safe_evalTr e with
      | (.error err, tr) => (.error err, tr)
      | (.ok v, tr) => (f v, tr)
  | .call fn args kws =>
    match fn with
    | .name fname =>
      match List.lookup fname ALLOWED_NAMES with
      | none => (.error (.valueError ("Function " ++ fname ++ " is not allowed")), [])
      | some v =>
        if v.isCallable then
          match safe_evalListTr args with
          | (.error e, tr) => (.error e, tr)
          | (.ok avs, tr) =>
            if kws.isEmpty then
              if fname == "factorial" then
                match factorialCheck avs with
                | .error e => (.error e, tr)
                | .ok r => (.ok r, tr ++ ["factorial"])
              else (applyHostFunc fname avs, tr ++ [fname])
            else (.error (.valueError "Keyword arguments are not supported"), tr)
        else (.error (.valueError ("Function " ++ fname ++ " is not allowed")), [])
    | _ => (.error (.valueError "Only direct function calls are allowed"), [])
  | .name id =>
    match List.lookup id ALLOWED_NAMES with
    | some v => (.ok v, [])
    | none => (.error (.valueError ("Name " ++ id ++ " is not allowed")), [])
  | .tuple elts =>
    match safe_evalListTr elts with
    | (.error e, tr) => (.error e, tr)
    | (.ok vs, tr) => (.ok (.tuple vs), tr)
  | .attr _ _ => (.error (.valueError "Unsupported expression"), [])
  | .subscript _ _ => (.error (.valueError "Unsupported expression"), [])
  | .compare _ _ _ => (.error (.valueError "Unsupported expression"), [])
  | .boolOp _ _ => (.error (.valueError "Unsupported expression"), [])

def safe_evalListTr : List PyAst → Except PyErr (List Value) × List String
  | [] => (.ok [], [])
  | a :: rest =>
    match safe_evalTr a with
    | (.error e, tr) => (.error e, tr)
    | (.ok v, tr₁) =>
      match safe_evalListTr rest with
      | (.error e, tr₂) => (.error e, tr₁ ++ tr₂)
      | (.ok vs, tr₂) => (.ok (v :: vs), tr₁ ++ tr₂)

end

/-- The evaluation phase of `evaluate` applied to an already-parsed tree:
the forbidden-construct walk, then `_safe_eval` (source lines 136–145). -/
def evaluateAst (t : PyAst) : Except PyErr Value :=
  match walkCheck t with
  | some e => .error e
  | none => safe_eval t

/-- `evaluateAst` instrumented with the invoked host functions: when the walk
raises, `_safe_eval` never runs and nothing is invoked. -/
def evaluateAstTr (t : PyAst) : Except PyErr Value × List String :=
  match walkCheck t with
  | some e => (.error e, [])
  | none => safe_evalTr t

/-! ## The host parser (`ast.parse(expr, mode='eval')`)

A model of the CPython tokenizer and expression grammar for the fragment the
program exercises: numeric literals (no exponent notation), string literals
(no escape sequences), identifiers and keywords, unary/binary/comparison/
boolean operators with Python precedence (`**` right-associative and binding
tighter than a unary minus on its left), parenthesised groups and tuples,
calls with positional and keyword arguments, attribute access, subscription,
and top-level comma expressions.  List/dict/set displays, lambdas and other
constructs the claims never mention are not modelled and report a syntax
error. -/

inductive Tok
  | intTok (n : Nat)
  | floatTok (q : PyRat)
  | strTok (s : String)
  | identTok (s : String)
  | symTok (s : String)
deriving Repr, DecidableEq

def isIdentStart (c : Char) : Bool := c.isAlpha || c == '_'

def isIdentCh (c : Char) : Bool := c.isAlphanum || c == '_'

def takeDigits : List Char → List Char × List Char
  | [] => ([], [])
  | c :: cs =>
    if c.isDigit then
      let (d, r) := takeDigits cs
      (c :: d, r)
    else ([], c :: cs)

def takeIdent : List Char → List Char × List Char
  | [] => ([], [])
  | c :: cs =>
    if isIdentCh c then
      let (d, r) := takeIdent cs
      (c :: d, r)
    else ([], c :: cs)

def digitsToNat (ds : List Char) : Nat :=
  ds.foldl (fun a c => a * 10 + (c.toNat - 48)) 0

/-- Scan a string literal body up to the closing quote character. -/
def takeStr (q : Char) : List Char → Option (List Char × List Char)
  | [] => none
  | c :: cs =>
    if c == q then some ([], cs)
    else
      match takeStr q cs with
      | some (body, rest) => some (c :: body, rest)
      | none => none

def quoteCh : Char := Char.ofNat 39

def dquoteCh : Char := Char.ofNat 34

def twoCharSyms : List String := ["**", "//", "<<", ">>", "<=", ">=", "==", "!="]

def oneCharSyms : List Char :=
  ['+', '-', '*', '/', '%', '(', ')', '[', ']', ',', '.', '<', '>',
   '|', '&', '^', '~', '=']

def tokenizeAux : Nat → List Char → Except String (List Tok)
  | 0, _ => .error "tokenizer fuel exhausted"
  | _, [] => .ok []
  | fuel + 1, c :: cs =>
    if c == ' ' || c == '\t' then tokenizeAux fuel cs
    else if c.isDigit then
      let (ds, r1) := takeDigits (c :: cs)
      match r1 with
      | '.' :: r2 =>
        let (fs, r3) := takeDigits r2
        let den : Nat := 10 ^ fs.length
        let val : PyRat := ⟨Int.ofNat (digitsToNat ds * den + digitsToNat fs), den⟩
        do
          let ts ← tokenizeAux fuel r3
          .ok (.floatTok val :: ts)
      | _ => do
        let ts ← tokenizeAux fuel r1
        .ok (.intTok (digitsToNat ds) :: ts)
    else if isIdentStart c then
      let (ds, r1) := takeIdent (c :: cs)
      do
        let ts ← tokenizeAux fuel r1
        .ok (.identTok (String.mk ds) :: ts)
    else if c == quoteCh || c == dquoteCh then
      match takeStr c cs with
      | some (body, rest) => do
        let ts ← tokenizeAux fuel rest
        .ok (.strTok (String.mk body) :: ts)
      | none => .error "unterminated string literal"
    else
      match cs with
      | c2 :: cs2 =>
        let two := String.mk [c, c2]
        if twoCharSyms.contains two then do
          let ts ← tokenizeAux fuel cs2
          .ok (.symTok two :: ts)
        else if oneCharSyms.contains c then do
          let ts ← tokenizeAux fuel cs
          .ok (.symTok (String.mk [c]) :: ts)
        else .error "invalid character"
      | [] =>
        if oneCharSyms.contains c then do
          let ts ← tokenizeAux fuel []
          .ok (.symTok (String.mk [c]) :: ts)
        else .error "invalid character"

def tokenize (s : String) : Except String (List Tok) :=
  tokenizeAux (s.data.length + 1) s.data

def peekSym (s : String) : List Tok → Bool
  | .symTok x :: _ => x == s
  | _ => false

def expectSym (s : String) : List Tok → Except String (List Tok)
  | .symTok x :: r => if x == s then .ok r else .error ("expected " ++ s)
  | _ => .error ("expected " ++ s)

/-- Tokens that can begin an expression of the modelled fragment (used to
recognise a trailing comma in a testlist). -/
def startsExpr : List Tok → Bool
  | .intTok _ :: _ => true
  | .floatTok _ :: _ => true
  | .strTok _ :: _ => true
  | .identTok x :: _ => !(x == "or" || x == "and")
  | .symTok x :: _ => x == "(" || x == "+" || x == "-" || x == "~"
  | _ => false

def peekIdent (s : String) : List Tok → Bool
  | .identTok x :: _ => x == s
  | _ => false

def cmpOfSym (s : String) : Option CmpKind :=
  if s == "<" then some .lt
  else if s == ">" then some .gt
  else if s == "<=" then some .le
  else if s == ">=" then some .ge
  else if s == "==" then some .eq
  else if s == "!=" then some .ne
  else none

mutual

/-- `mode='eval'` body: an expression list; `a, b` (with or without a trailing
comma) parses to a `Tuple` node, a lone expression to itself. -/
def parseTestlist : Nat → List Tok → Except String (PyAst × List Tok)
  | 0, _ => .error "parse fuel exhausted"
  | fuel + 1, ts => do
    let (e, r) ← parseOrExpr fuel ts
    if peekSym "," r then parseTestlistRest fuel [e] r
    else .ok (e, r)

def parseTestlistRest : Nat → List PyAst → List Tok → Except String (PyAst × List Tok)
  | 0, _, _ => .error "parse fuel exhausted"
  | fuel + 1, acc, ts =>
    match ts with
    | .symTok "," :: r =>
      if startsExpr r then do
        let (e, r2) ← parseOrExpr fuel r
        parseTestlistRest fuel (acc ++ [e]) r2
      else .ok (.tuple acc, r)
    | _ => .ok (.tuple acc, ts)

def parseOrExpr : Nat → List Tok → Except String (PyAst × List Tok)
  | 0, _ => .error "parse fuel exhausted"
  | fuel + 1, ts => do
    let (e, r) ← parseAndExpr fuel ts
    if peekIdent "or" r then do
      let (es, r2) ← parseBoolRest fuel "or" [e] r
      .ok (.boolOp .orK es, r2)
    else .ok (e, r)

def parseAndExpr : Nat → List Tok → Except String (PyAst × List Tok)
  | 0, _ => .error "parse fuel exhausted"
  | fuel + 1, ts => do
    let (e, r) ← parseNotExpr fuel ts
    if peekIdent "and" r then do
      let (es, r2) ← parseBoolRest fuel "and" [e] r
      .ok (.boolOp .andK es, r2)
    else .ok (e, r)

def parseBoolRest : Nat → String → List PyAst → List Tok →
    Except String (List PyAst × List Tok)
  | 0, _, _, _ => .error "parse fuel exhausted"
  | fuel + 1, kw, acc, ts =>
    match ts with
    | .identTok x :: r =>
      if x == kw then do
        let (e, r2) ←
          (if kw == "or" then parseAndExpr fuel r else parseNotExpr fuel r)
        parseBoolRest fuel kw (acc ++ [e]) r2
      else .ok (acc, ts)
    | _ => .ok (acc, ts)

def parseNotExpr : Nat → List Tok → Except String (PyAst × List Tok)
  | 0, _ => .error "parse fuel exhausted"
  | fuel + 1, ts =>
    match ts with
    | .identTok "not" :: r => do
      let (e, r2) ← parseNotExpr fuel r
      .ok (.unaryOp .notOp e, r2)
    | _ => parseCmp fuel ts

def parseCmp : Nat → List Tok → Except String (PyAst × List Tok)
  | 0, _ => .error "parse fuel exhausted"
  | fuel + 1, ts => do
    let (e, r) ← parseBitOr fuel ts
    match r with
    | .symTok s :: _ =>
      match cmpOfSym s with
      | some _ => do
        let (ops, rs, r2) ← parseCmpRest fuel [] [] r
        .ok (.compare e ops rs, r2)
      | none => .ok (e, r)
    | _ => .ok (e, r)

def parseCmpRest : Nat → List CmpKind → List PyAst → List Tok →
    Except String (List CmpKind × List PyAst × List Tok)
  | 0, _, _, _ => .error "parse fuel exhausted"
  | fuel + 1, ops, rs, ts =>
    match ts with
    | .symTok s :: r =>
      match cmpOfSym s with
      | some k => do
        let (e, r2) ← parseBitOr fuel r
        parseCmpRest fuel (ops ++ [k]) (rs ++ [e]) r2
      | none => .ok (ops, rs, ts)
    | _ => .ok (ops, rs, ts)

def parseBitOr : Nat → List Tok → Except String (PyAst × List Tok)
  | 0, _ => .error "parse fuel exhausted"
  | fuel + 1, ts => do
    let (e, r) ← parseBitXor fuel ts
    parseBitOrRest fuel e r

def parseBitOrRest : Nat → PyAst → List Tok → Except String (PyAst × List Tok)
  | 0, _, _ => .error "parse fuel exhausted"
  | fuel + 1, acc, ts =>
    match ts with
    | .symTok "|" :: r => do
      let (e, r2) ← parseBitXor fuel r
      parseBitOrRest fuel (.binOp .bitOr acc e) r2
    | _ => .ok (acc, ts)

def parseBitXor : Nat → List Tok → Except String (PyAst × List Tok)
  | 0, _ => .error "parse fuel exhausted"
  | fuel + 1, ts => do
    let (e, r) ← parseBitAnd fuel ts
    parseBitXorRest fuel e r

def parseBitXorRest : Nat → PyAst → List Tok → Except String (PyAst × List Tok)
  | 0, _, _ => .error "parse fuel exhausted"
  | fuel + 1, acc, ts =>
    match ts with
    | .symTok "^" :: r => do
      let (e, r2) ← parseBitAnd fuel r
      parseBitXorRest fuel (.binOp .bitXor acc e) r2
    | _ => .ok (acc, ts)

def parseBitAnd : Nat → List Tok → Except String (PyAst × List Tok)
  | 0, _ => .error "parse fuel exhausted"
  | fuel + 1, ts => do
    let (e, r) ← parseShift fuel ts
    parseBitAndRest fuel e r

def parseBitAndRest : Nat → PyAst → List Tok → Except String (PyAst × List Tok)
  | 0, _, _ => .error "parse fuel exhausted"
  | fuel + 1, acc, ts =>
    match ts with
    | .symTok "&" :: r => do
      let (e, r2) ← parseShift fuel r
      parseBitAndRest fuel (.binOp .bitAnd acc e) r2
    | _ => .ok (acc, ts)

def parseShift : Nat → List Tok → Except String (PyAst × List Tok)
  | 0, _ => .error "parse fuel exhausted"
  | fuel + 1, ts => do
    let (e, r) ← parseArith fuel ts
    parseShiftRest fuel e r

def parseShiftRest : Nat → PyAst → List Tok → Except String (PyAst × List Tok)
  | 0, _, _ => .error "parse fuel exhausted"
  | fuel + 1, acc, ts =>
    match ts with
    | .symTok "<<" :: r => do
      let (e, r2) ← parseArith fuel r
      parseShiftRest fuel (.binOp .lshift acc e) r2
    | .symTok ">>" :: r => do
      let (e, r2) ← parseArith fuel r
      parseShiftRest fuel (.binOp .rshift acc e) r2
    | _ => .ok (acc, ts)

def parseArith : Nat → List Tok → Except String (PyAst × List Tok)
  | 0, _ => .error "parse fuel exhausted"
  | fuel + 1, ts => do
    let (e, r) ← parseTerm fuel ts
    parseArithRest fuel e r

def parseArithRest : Nat → PyAst → List Tok → Except String (PyAst × List Tok)
  | 0, _, _ => .error "parse fuel exhausted"
  | fuel + 1, acc, ts =>
    match ts with
    | .symTok "+" :: r => do
      let (e, r2) ← parseTerm fuel r
      parseArithRest fuel (.binOp .add acc e) r2
    | .symTok "-" :: r => do
      let (e, r2) ← parseTerm fuel r
      parseArithRest fuel (.binOp .sub acc e) r2
    | _ => .ok (acc, ts)

def parseTerm : Nat → List Tok → Except String (PyAst × List Tok)
  | 0, _ => .error "parse fuel exhausted"
  | fuel + 1, ts => do
    let (e, r) ← parseFactor fuel ts
    parseTermRest fuel e r

def parseTermRest : Nat → PyAst → List Tok → Except String (PyAst × List Tok)
  | 0, _, _ => .error "parse fuel exhausted"
  | fuel + 1, acc, ts =>
    match ts with
    | .symTok "*" :: r => do
      let (e, r2) ← parseFactor fuel r
      parseTermRest fuel (.binOp .mult acc e) r2
    | .symTok "/" :: r => do
      let (e, r2) ← parseFactor fuel r
      parseTermRest fuel (.binOp .div acc e) r2
    | .symTok "//" :: r => do
      let (e, r2) ← parseFactor fuel r
      parseTermRest fuel (.binOp .floorDiv acc e) r2
    | .symTok "%" :: r => do
      let (e, r2) ← parseFactor fuel r
      parseTermRest fuel (.binOp .mod acc e) r2
    | _ => .ok (acc, ts)

/-- `factor: ('+' | '-' | '~') factor | power` — so a unary minus applies to
the whole power expression on its right: `-2**2` is `-(2**2)`. -/
def parseFactor : Nat → List Tok → Except String (PyAst × List Tok)
  | 0, _ => .error "parse fuel exhausted"
  | fuel + 1, ts =>
    match ts with
    | .symTok "+" :: r => do
      let (e, r2) ← parseFactor fuel r
      .ok (.unaryOp .uadd e, r2)
    | .symTok "-" :: r => do
      let (e, r2) ← parseFactor fuel r
      .ok (.unaryOp .usub e, r2)
    | .symTok "~" :: r => do
      let (e, r2) ← parseFactor fuel r
      .ok (.unaryOp .invert e, r2)
    | _ => parsePower fuel ts

/-- `power: primary ['**' factor]` — right-associative, and the right operand
may itself carry a unary sign. -/
def parsePower : Nat → List Tok → Except String (PyAst × List Tok)
  | 0, _ => .error "parse fuel exhausted"
  | fuel + 1, ts => do
    let (b, r) ← parseTrailerExpr fuel ts
    match r with
    | .symTok "**" :: r2 => do
      let (e, r3) ← parseFactor fuel r2
      .ok (.binOp .pow b e, r3)
    | _ => .ok (b, r)

def parseTrailerExpr : Nat → List Tok → Except String (PyAst × List Tok)
  | 0, _ => .error "parse fuel exhausted"
  | fuel + 1, ts => do
    let (a, r) ← parseAtom fuel ts
    parseTrailers fuel a r

/-- Postfix trailers: calls `f(...)`, subscription `a[...]`, attribute
access `a.b`. -/
def parseTrailers : Nat → PyAst → List Tok → Except String (PyAst × List Tok)
  | 0, _, _ => .error "parse fuel exhausted"
  | fuel + 1, a, ts =>
    match ts with
    | .symTok "(" :: r => do
      let (args, kws, r2) ← parseCallArgs fuel r
      parseTrailers fuel (.call a args kws) r2
    | .symTok "[" :: r => do
      let (i, r2) ← parseTestlist fuel r
      let r3 ← expectSym "]" r2
      parseTrailers fuel (.subscript a i) r3
    | .symTok "." :: .identTok x :: r => parseTrailers fuel (.attr a x) r
    | _ => .ok (a, ts)

/-- Call argument list after the opening parenthesis: zero or more positional
arguments, then zero or more `name=value` keyword arguments (a positional
argument after a keyword one is a syntax error, as in CPython). -/
def parseCallArgs : Nat → List Tok →
    Except String (List PyAst × List (String × PyAst) × List Tok)
  | 0, _ => .error "parse fuel exhausted"
  | fuel + 1, ts =>
    match ts with
    | .symTok ")" :: r => .ok ([], [], r)
    | _ => parseCallArgsRest fuel [] [] ts

def parseCallArgsRest : Nat → List PyAst → List (String × PyAst) → List Tok →
    Except String (List PyAst × List (String × PyAst) × List Tok)
  | 0, _, _, _ => .error "parse fuel exhausted"
  | fuel + 1, args, kws, ts => do
    let (args2, kws2, r) ←
      (match ts with
       | .identTok x :: .symTok "=" :: r0 => do
         let (e, r1) ← parseOrExpr fuel r0
         .ok (args, kws ++ [(x, e)], r1)
       | _ => do
         if kws.isEmpty then do
           let (e, r1) ← parseOrExpr fuel ts
           .ok (args ++ [e], kws, r1)
         else .error "positional argument follows keyword argument")
    match r with
    | .symTok "," :: r2 =>
      if peekSym ")" r2 then .ok (args2, kws2, r2.tail)
      else parseCallArgsRest fuel args2 kws2 r2
    | .symTok ")" :: r2 => .ok (args2, kws2, r2)
    | _ => .error "expected , or ) in call"

def parseAtom : Nat → List Tok → Except String (PyAst × List Tok)
  | 0, _ => .error "parse fuel exhausted"
  | fuel + 1, ts =>
    match ts with
    | .intTok n :: r => .ok (.constant (.int (Int.ofNat n)), r)
    | .floatTok q :: r => .ok (.constant (.float (.finite q)), r)
    | .strTok s :: r => .ok (.constant (.str s), r)
    | .identTok "True" :: r => .ok (.constant (.bool true), r)
    | .identTok "False" :: r => .ok (.constant (.bool false), r)
    | .identTok "None" :: r => .ok (.constant .noneLit, r)
    | .identTok x :: r =>
      if x == "or" || x == "and" || x == "not" then .error "unexpected keyword"
      else .ok (.name x, r)
    | .symTok "(" :: r =>
      if peekSym ")" r then .ok (.tuple [], r.tail)
      else do
        let (e, r2) ← parseTestlist fuel r
        let r3 ← expectSym ")" r2
        .ok (e, r3)
    | _ => .error "unexpected token"

end

/-- `ast.parse(expr, mode='eval')`: tokenize, parse a testlist, require the
whole input consumed, wrap in the `Expression` root node. -/
def pyParse (expr : String) : Except String PyAst := do
  let toks ← tokenize expr
  let (e, r) ← parseTestlist ((toks.length + 1) * 20) toks
  if r.isEmpty then .ok (.expression e)
  else .error "invalid syntax"

/-- `evaluate` (source lines 126–145), parameterised by the whitelist tables:
parse (re-raising syntax errors as `ValueError`), walk-reject forbidden
constructs, then `_safe_eval`. -/
def evaluateT (T : Tables) (expr : String) : Except PyErr Value :=
  match pyParse expr with
  | .error e => .error (.valueError ("Syntax error: " ++ e))
  | .ok tree =>
    match walkCheck tree with
    | some err => .error err
    | none => safe_evalT T tree

/-- `evaluate` with the module's actual tables. -/
def evaluate (expr : String) : Except PyErr Value := evaluateT defaultTables expr

/-- State-passing embedding of a call to `evaluate`: the only module-level
state the function can touch is the whitelist tables, which it reads and never
writes — the state component of the result is the input state, unchanged. -/
def evaluateState (st : Tables) (expr : String) : Except PyErr Value × Tables :=
  (evaluateT st expr, st)

/-! ## Helper predicates and lemmas -/

def isErr : Except PyErr Value → Bool
  | .error _ => true
  | .ok _ => false

def isErrL : Except PyErr (List Value) → Bool
  | .error _ => true
  | .ok _ => false

/-- The evaluated value is numerically zero (an `int` 0, `False`, or a float
zero) — the divisors Python rejects for `/`, `//` and `%`. -/
def Value.isZeroNum (v : Value) : Bool :=
  match v.toNum with
  | some (.i n) => n == 0
  | some (.f x) => x.isZero
  | none => false

/-- A numeric constant acceptable to `factorial`: a non-negative integer, a
boolean, or a float with no fractional part and non-negative value. -/
def ConstVal.isNonNegInt : ConstVal → Bool
  | .int n => decide (0 ≤ n)
  | .bool _ => true
  | .float (.finite q) => q.isInteger && !q.ltZero
  | _ => false

/-- Direct application of the host operator corresponding to a whitelisted
binary-operator node — the oracle the evaluator is compared against. -/
def hostBinOp : BinKind → Value → Value → Except PyErr Value
  | .add => pyAdd
  | .sub => pySub
  | .mult => pyMul
  | .div => pyTrueDiv
  | .floorDiv => pyFloorDiv
  | .mod => pyMod
  | .pow => pyPow
  | _ => fun _ _ => .error (.typeError "not a whitelisted arithmetic operator")

theorem orElse_isSome_left {a : Option PyErr} {f : Unit → Option PyErr}
    (h : a.isSome = true) : (a.orElse f).isSome = true := by
  cases a with
  | none => simp at h
  | some e => rfl

theorem orElse_isSome_right {a : Option PyErr} {f : Unit → Option PyErr}
    (h : (f ()).isSome = true) : (a.orElse f).isSome = true := by
  cases a with
  | none => simpa [Option.orElse] using h
  | some e => rfl

mutual

/-- The walk is exhaustive: any attribute-access, subscription or
string-literal node anywhere in the tree makes it raise. -/
theorem walk_finds_forbidden :
    ∀ t : PyAst, hasForbiddenNode t = true → (walkCheck t).isSome = true
  | .expression b, h => by
    simp only [hasForbiddenNode] at h
    simpa only [walkCheck] using walk_finds_forbidden b h
  | .constant c, h => by
    simp only [hasForbiddenNode] at h
    simp [walkCheck, walkNodeCheck, h]
  | .binOp op l r, h => by
    simp only [hasForbiddenNode, Bool.or_eq_true] at h
    simp only [walkCheck]
    rcases h with h | h
    · exact orElse_isSome_left (walk_finds_forbidden l h)
    · exact orElse_isSome_right (walk_finds_forbidden r h)
  | .unaryOp op e, h => by
    simp only [hasForbiddenNode] at h
    simpa only [walkCheck] using walk_finds_forbidden e h
  | .call fn args kws, h => by
    simp only [hasForbiddenNode, Bool.or_eq_true] at h
    simp only [walkCheck]
    rcases h with (h | h) | h
    · exact orElse_isSome_left (orElse_isSome_left (walk_finds_forbidden fn h))
    · exact orElse_isSome_left (orElse_isSome_right (walk_finds_forbidden_list args h))
    · exact orElse_isSome_right (walk_finds_forbidden_kws kws h)
  | .tuple elts, h => by
    simp only [hasForbiddenNode] at h
    simpa only [walkCheck] using walk_finds_forbidden_list elts h
  | .attr o f, _ => by simp [walkCheck, walkNodeCheck, Option.orElse]
  | .subscript o i, _ => by simp [walkCheck, walkNodeCheck, Option.orElse]
  | .compare l ops rs, h => by
    simp only [hasForbiddenNode, Bool.or_eq_true] at h
    simp only [walkCheck]
    rcases h with h | h
    · exact orElse_isSome_left (walk_finds_forbidden l h)
    · exact orElse_isSome_right (walk_finds_forbidden_list rs h)
  | .boolOp op vs, h => by
    simp only [hasForbiddenNode] at h
    simpa only [walkCheck] using walk_finds_forbidden_list vs h

theorem walk_finds_forbidden_list :
    ∀ l : List PyAst, hasForbiddenNodeList l = true → (walkCheckList l).isSome = true
  | a :: rest, h => by
    simp only [hasForbiddenNodeList, Bool.or_eq_true] at h
    simp only [walkCheckList]
    rcases h with h | h
    · exact orElse_isSome_left (walk_finds_forbidden a h)
    · exact orElse_isSome_right (walk_finds_forbidden_list rest h)

theorem walk_finds_forbidden_kws :
    ∀ l : List (String × PyAst), hasForbiddenNodeKws l = true →
      (walkCheckKws l).isSome = true
  | (x, v) :: rest, h => by
    simp only [hasForbiddenNodeKws, Bool.or_eq_true] at h
    simp only [walkCheckKws]
    rcases h with h | h
    · exact orElse_isSome_left (walk_finds_forbidden v h)
    · exact orElse_isSome_right (walk_finds_forbidden_kws rest h)

end

theorem defaultTables_binops : defaultTables.binops = ALLOWED_BINOPS := rfl

theorem defaultTables_unaryops : defaultTables.unaryops = ALLOWED_UNARYOPS := rfl

theorem defaultTables_names : defaultTables.names = ALLOWED_NAMES := rfl

theorem exc_bind_err {α β : Type} (e : PyErr) (f : α → Except PyErr β) :
    (Except.error e : Except PyErr α) >>= f = .error e := rfl

theorem exc_bind_ok {α β : Type} (a : α) (f : α → Except PyErr β) :
    (Except.ok a : Except PyErr α) >>= f = f a := rfl

theorem hasBadOpKws_not_empty {kws : List (String × PyAst)}
    (h : hasBadOpKws kws = true) : kws.isEmpty = false := by
  cases kws with
  | nil => simp [hasBadOpKws] at h
  | cons a rest => rfl

mutual

/-- An operator node outside the allowed set anywhere in a tree forces
`_safe_eval` to fail on that tree: the operator either fails its own table
lookup (or falls to the unsupported-expression catch-all) or sits inside an
operand/argument whose failure propagates. -/
theorem badOp_eval_err :
    ∀ t : PyAst, hasBadOp t = true → isErr (safe_evalT defaultTables t) = true
  | .expression b, h => by
    simp only [hasBadOp] at h
    exact badOp_eval_err b h
  | .binOp op l r, h => by
    simp only [hasBadOp, Bool.or_eq_true] at h
    cases hop : List.lookup op ALLOWED_BINOPS with
    | none =>
      have heq : safe_evalT defaultTables (.binOp op l r) =
          .error (.valueError ("Binary operator " ++ binKindName op ++ " is not allowed")) := by
        simp [safe_evalT, defaultTables_binops, defaultTables_unaryops, hop, exc_bind_err, exc_bind_ok]
      rw [heq]; rfl
    | some f =>
      have heq : safe_evalT defaultTables (.binOp op l r) =
          (safe_evalT defaultTables l >>= fun lv =>
            safe_evalT defaultTables r >>= fun rv => f lv rv) := by
        simp [safe_evalT, defaultTables_binops, defaultTables_unaryops, hop, exc_bind_err, exc_bind_ok]
      rcases h with (hno | hl) | hr
      · rw [hop] at hno; simp at hno
      · cases hle : safe_evalT defaultTables l with
        | error e => rw [heq, hle]; rfl
        | ok v =>
          have hcontra := badOp_eval_err l hl
          rw [hle] at hcontra; simp [isErr] at hcontra
      · cases hle : safe_evalT defaultTables l with
        | error e => rw [heq, hle]; rfl
        | ok v =>
          cases hre : safe_evalT defaultTables r with
          | error e2 => rw [heq, hle, hre]; rfl
          | ok w =>
            have hcontra := badOp_eval_err r hr
            rw [hre] at hcontra; simp [isErr] at hcontra
  | .unaryOp op e, h => by
    simp only [hasBadOp, Bool.or_eq_true] at h
    cases hop : List.lookup op ALLOWED_UNARYOPS with
    | none =>
      have heq : safe_evalT defaultTables (.unaryOp op e) =
          .error (.valueError ("Unary operator " ++ unaryKindName op ++ " is not allowed")) := by
        simp [safe_evalT, defaultTables_binops, defaultTables_unaryops, hop, exc_bind_err, exc_bind_ok]
      rw [heq]; rfl
    | some f =>
      have heq : safe_evalT defaultTables (.unaryOp op e) =
          (safe_evalT defaultTables e >>= fun v => f v) := by
        simp [safe_evalT, defaultTables_binops, defaultTables_unaryops, hop, exc_bind_err, exc_bind_ok]
      rcases h with hno | he
      · rw [hop] at hno; simp at hno
      · cases hee : safe_evalT defaultTables e with
        | error e2 => rw [heq, hee]; rfl
        | ok v =>
          have hcontra := badOp_eval_err e he
          rw [hee] at hcontra; simp [isErr] at hcontra
  | .call fn args kws, h => by
    simp only [hasBadOp, Bool.or_eq_true] at h
    cases fn
    case name fname =>
      rcases h with (hfn | hargs) | hkws
      · simp [hasBadOp] at hfn
      · cases hlook : List.lookup fname ALLOWED_NAMES with
        | none =>
          have heq : safe_evalT defaultTables (.call (.name fname) args kws) =
              .error (.valueError ("Function " ++ fname ++ " is not allowed")) := by
            simp [safe_evalT, defaultTables_names, hlook]
          rw [heq]; rfl
        | some v =>
          cases hc : v.isCallable with
          | false =>
            have heq : safe_evalT defaultTables (.call (.name fname) args kws) =
                .error (.valueError ("Function " ++ fname ++ " is not allowed")) := by
              simp [safe_evalT, defaultTables_names, hlook, hc]
            rw [heq]; rfl
          | true =>
            cases hl : safe_evalListT defaultTables args with
            | error e =>
              have heq : safe_evalT defaultTables (.call (.name fname) args kws) =
                  .error e := by
                simp [safe_evalT, defaultTables_names, hlook, hc, hl, exc_bind_err, exc_bind_ok]
              rw [heq]; rfl
            | ok avs =>
              have hcontra := badOp_evalList_err args hargs
              rw [hl] at hcontra; simp [isErrL] at hcontra
      · cases hlook : List.lookup fname ALLOWED_NAMES with
        | none =>
          have heq : safe_evalT defaultTables (.call (.name fname) args kws) =
              .error (.valueError ("Function " ++ fname ++ " is not allowed")) := by
            simp [safe_evalT, defaultTables_names, hlook]
          rw [heq]; rfl
        | some v =>
          cases hc : v.isCallable with
          | false =>
            have heq : safe_evalT defaultTables (.call (.name fname) args kws) =
                .error (.valueError ("Function " ++ fname ++ " is not allowed")) := by
              simp [safe_evalT, defaultTables_names, hlook, hc]
            rw [heq]; rfl
          | true =>
            cases hl : safe_evalListT defaultTables args with
            | error e =>
              have heq : safe_evalT defaultTables (.call (.name fname) args kws) =
                  .error e := by
                simp [safe_evalT, defaultTables_names, hlook, hc, hl, exc_bind_err, exc_bind_ok]
              rw [heq]; rfl
            | ok avs =>
              have hne := hasBadOpKws_not_empty hkws
              have heq : safe_evalT defaultTables (.call (.name fname) args kws) =
                  .error (.valueError "Keyword arguments are not supported") := by
                simp [safe_evalT, defaultTables_names, hlook, hc, hl, hne, exc_bind_err, exc_bind_ok]
              rw [heq]; rfl
    all_goals rfl
  | .tuple elts, h => by
    simp only [hasBadOp] at h
    have hcontra := badOp_evalList_err elts h
    cases hl : safe_evalListT defaultTables elts with
    | error e =>
      have heq : safe_evalT defaultTables (.tuple elts) = .error e := by
        simp [safe_evalT, hl, exc_bind_err, exc_bind_ok]
      rw [heq]; rfl
    | ok vs => rw [hl] at hcontra; simp [isErrL] at hcontra
  | .attr o f, _ => rfl
  | .subscript o i, _ => rfl
  | .compare l ops rs, _ => rfl
  | .boolOp op vs, _ => rfl

theorem badOp_evalList_err :
    ∀ l : List PyAst, hasBadOpList l = true →
      isErrL (safe_evalListT defaultTables l) = true
  | a :: rest, h => by
    simp only [hasBadOpList, Bool.or_eq_true] at h
    cases ha : safe_evalT defaultTables a with
    | error e =>
      have heq : safe_evalListT defaultTables (a :: rest) = .error e := by
        simp [safe_evalListT, ha, exc_bind_err, exc_bind_ok]
      rw [heq]; rfl
    | ok v =>
      rcases h with h | h
      · have hcontra := badOp_eval_err a h
        rw [ha] at hcontra; simp [isErr] at hcontra
      · cases hr : safe_evalListT defaultTables rest with
        | error e =>
          have heq : safe_evalListT defaultTables (a :: rest) = .error e := by
            simp [safe_evalListT, ha, hr, exc_bind_err, exc_bind_ok]
          rw [heq]; rfl
        | ok vs =>
          have hcontra := badOp_evalList_err rest h
          rw [hr] at hcontra; simp [isErrL] at hcontra

end

theorem const_eval_ok (c : ConstVal) (h : c.isNum = true) :
    safe_evalT defaultTables (.constant c) = .ok c.toValue := by
  simp [safe_evalT, h]

theorem constList_eval_ok :
    ∀ cs : List ConstVal, (∀ c ∈ cs, c.isNum = true) →
      safe_evalListT defaultTables (cs.map PyAst.constant) = .ok (cs.map ConstVal.toValue) := by
  intro cs
  induction cs with
  | nil => intro _; rfl
  | cons c rest ih =>
    intro h
    have hc := h c (by simp)
    have hr := ih (fun x hx => h x (by simp [hx]))
    simp [safe_evalListT, const_eval_ok c hc, hr, exc_bind_ok]

theorem evalList_of_pointwise :
    ∀ (elts : List PyAst) (vs : List Value),
      List.map safe_eval elts = List.map Except.ok vs →
      safe_evalListT defaultTables elts = .ok vs := by
  intro elts
  induction elts with
  | nil =>
    intro vs h
    cases vs with
    | nil => rfl
    | cons v vr => simp at h
  | cons a rest ih =>
    intro vs h
    cases vs with
    | nil => simp at h
    | cons v vr =>
      simp only [List.map, List.cons.injEq] at h
      obtain ⟨h1, h2⟩ := h
      have hrest := ih vr h2
      simp [safe_evalListT, show safe_evalT defaultTables a = .ok v from h1, hrest, exc_bind_ok]

/-- Case analysis of the factorial guard on a single numeric argument. -/
theorem factorialCheck_single_num (c : ConstVal) (h : c.isNum = true) :
    (c.isNonNegInt = true → ∃ v, factorialCheck [c.toValue] = .ok v)
    ∧ (c.isNonNegInt = false →
        factorialCheck [c.toValue] =
          .error (.valueError "factorial() requires a single non-negative integer")) := by
  cases c with
  | int n =>
    have hmod : Int.emod n 1 = 0 := Int.emod_one n
    constructor
    · intro hn
      simp only [ConstVal.isNonNegInt, decide_eq_true_eq] at hn
      refine ⟨.int (Int.ofNat (Nat.factorial n.toNat)), ?_⟩
      simp [factorialCheck, ConstVal.toValue, pyFloatFn, Value.toNum, NumV.toFloat,
        PyFloat.isIntegral, PyRat.isInteger, hmod, Value.ltZero, Value.intTrunc, exc_bind_ok,
        show ¬ (n < 0) by omega]
    · intro hn
      simp only [ConstVal.isNonNegInt, decide_eq_false_iff_not, not_le] at hn
      simp [factorialCheck, ConstVal.toValue, pyFloatFn, Value.toNum, NumV.toFloat,
        PyFloat.isIntegral, PyRat.isInteger, hmod, Value.ltZero, exc_bind_ok, hn]
  | bool b =>
    constructor
    · intro _
      cases b with
      | true => exact ⟨_, rfl⟩
      | false => exact ⟨_, rfl⟩
    · intro hn
      simp [ConstVal.isNonNegInt] at hn
  | float x =>
    cases x with
    | finite q =>
      constructor
      · intro hn
        simp only [ConstVal.isNonNegInt, Bool.and_eq_true, Bool.not_eq_true'] at hn
        obtain ⟨hI, hL⟩ := hn
        refine ⟨.int (Int.ofNat (Nat.factorial q.trunc.toNat)), ?_⟩
        simp [factorialCheck, ConstVal.toValue, pyFloatFn, Value.toNum, NumV.toFloat,
          PyFloat.isIntegral, hI, Value.ltZero, PyFloat.isNeg, hL, Value.intTrunc, exc_bind_ok]
      · intro hn
        simp only [ConstVal.isNonNegInt, Bool.and_eq_false_iff, Bool.not_eq_false'] at hn
        rcases hn with hI | hL
        · simp [factorialCheck, ConstVal.toValue, pyFloatFn, Value.toNum, NumV.toFloat,
            PyFloat.isIntegral, hI, exc_bind_ok]
        · cases hI : q.isInteger with
          | false =>
            simp [factorialCheck, ConstVal.toValue, pyFloatFn, Value.toNum, NumV.toFloat,
              PyFloat.isIntegral, hI, exc_bind_ok]
          | true =>
            simp [factorialCheck, ConstVal.toValue, pyFloatFn, Value.toNum, NumV.toFloat,
              PyFloat.isIntegral, hI, Value.ltZero, PyFloat.isNeg, hL, exc_bind_ok]
    | inf =>
      exact ⟨fun hn => by simp [ConstVal.isNonNegInt] at hn, fun _ => rfl⟩
    | ninf =>
      exact ⟨fun hn => by simp [ConstVal.isNonNegInt] at hn, fun _ => rfl⟩
    | nan =>
      exact ⟨fun hn => by simp [ConstVal.isNonNegInt] at hn, fun _ => rfl⟩
  | str s => simp [ConstVal.isNum] at h
  | noneLit => simp [ConstVal.isNum] at h

theorem binop_dispatch (op : BinKind) (f : Value → Value → Except PyErr Value)
    (hf : List.lookup op ALLOWED_BINOPS = some f) (l r : PyAst) (vl vr : Value)
    (hl : safe_evalT defaultTables l = .ok vl) (hr : safe_evalT defaultTables r = .ok vr) :
    safe_evalT defaultTables (.binOp op l r) = f vl vr := by
  simp [safe_evalT, defaultTables_binops, hf, hl, hr, exc_bind_ok]

theorem pyTrueDiv_zero (vl vr : Value) (hnum : vl.toNum.isSome = true)
    (hz : vr.isZeroNum = true) :
    ∃ msg, pyTrueDiv vl vr = .error (.zeroDivisionError msg) := by
  unfold Value.isZeroNum at hz
  cases hvl : vl.toNum with
  | none => rw [hvl] at hnum; simp at hnum
  | some nl =>
    cases hvr : vr.toNum with
    | none => rw [hvr] at hz; simp at hz
    | some nr =>
      rw [hvr] at hz
      cases nl with
      | i m =>
        cases nr with
        | i n =>
          have hn : n = 0 := by simpa using hz
          exact ⟨"division by zero", by simp [pyTrueDiv, hvl, hvr, hn]⟩
        | f x =>
          have hx : x.isZero = true := hz
          exact ⟨"float division by zero", by simp [pyTrueDiv, hvl, hvr, NumV.toFloat, hx]⟩
      | f y =>
        cases nr with
        | i n =>
          have hn : n = 0 := by simpa using hz
          exact ⟨"float division by zero",
            by simp [pyTrueDiv, hvl, hvr, hn, NumV.toFloat, PyFloat.isZero, PyRat.isZero]⟩
        | f x =>
          have hx : x.isZero = true := hz
          exact ⟨"float division by zero", by simp [pyTrueDiv, hvl, hvr, NumV.toFloat, hx]⟩

theorem pyFloorDiv_zero (vl vr : Value) (hnum : vl.toNum.isSome = true)
    (hz : vr.isZeroNum = true) :
    ∃ msg, pyFloorDiv vl vr = .error (.zeroDivisionError msg) := by
  unfold Value.isZeroNum at hz
  cases hvl : vl.toNum with
  | none => rw [hvl] at hnum; simp at hnum
  | some nl =>
    cases hvr : vr.toNum with
    | none => rw [hvr] at hz; simp at hz
    | some nr =>
      rw [hvr] at hz
      cases nl with
      | i m =>
        cases nr with
        | i n =>
          have hn : n = 0 := by simpa using hz
          exact ⟨"integer division or modulo by zero", by simp [pyFloorDiv, hvl, hvr, hn]⟩
        | f x =>
          have hx : x.isZero = true := hz
          exact ⟨"float floor division by zero",
            by simp [pyFloorDiv, hvl, hvr, NumV.toFloat, hx]⟩
      | f y =>
        cases nr with
        | i n =>
          have hn : n = 0 := by simpa using hz
          exact ⟨"float floor division by zero",
            by simp [pyFloorDiv, hvl, hvr, hn, NumV.toFloat, PyFloat.isZero, PyRat.isZero]⟩
        | f x =>
          have hx : x.isZero = true := hz
          exact ⟨"float floor division by zero",
            by simp [pyFloorDiv, hvl, hvr, NumV.toFloat, hx]⟩

theorem pyMod_zero (vl vr : Value) (hnum : vl.toNum.isSome = true)
    (hz : vr.isZeroNum = true) :
    ∃ msg, pyMod vl vr = .error (.zeroDivisionError msg) := by
  unfold Value.isZeroNum at hz
  cases hvl : vl.toNum with
  | none => rw [hvl] at hnum; simp at hnum
  | some nl =>
    cases hvr : vr.toNum with
    | none => rw [hvr] at hz; simp at hz
    | some nr =>
      rw [hvr] at hz
      cases nl with
      | i m =>
        cases nr with
        | i n =>
          have hn : n = 0 := by simpa using hz
          exact ⟨"integer division or modulo by zero", by simp [pyMod, hvl, hvr, hn]⟩
        | f x =>
          have hx : x.isZero = true := hz
          exact ⟨"float modulo", by simp [pyMod, hvl, hvr, NumV.toFloat, hx]⟩
      | f y =>
        cases nr with
        | i n =>
          have hn : n = 0 := by simpa using hz
          exact ⟨"float modulo",
            by simp [pyMod, hvl, hvr, hn, NumV.toFloat, PyFloat.isZero, PyRat.isZero]⟩
        | f x =>
          have hx : x.isZero = true := hz
          exact ⟨"float modulo", by simp [pyMod, hvl, hvr, NumV.toFloat, hx]⟩

/-! ## Claims -/

/-- **C1.** Any input whose parsed structure contains an excluded construct —
attribute access, subscription, a string literal, or an operator outside the
allowed set (bitwise, comparison, boolean) — makes `evaluate` return an error,
even when the construct is nested inside an otherwise-valid expression; for the
attribute/subscription/string cases the rejection comes from the exhaustive
walk over the whole parsed structure before evaluation begins, so no
whitelisted function is invoked on the way to the error (the instrumented
evaluator's invocation trace is empty). -/
theorem claim_C1 :
    (∀ t : PyAst, hasForbiddenNode t = true →
      ∃ e, evaluateAst t = .error e ∧ evaluateAstTr t = (.error e, []))
    ∧ (∀ t : PyAst, hasBadOp t = true → ∃ e, evaluateAst t = .error e)
    ∧ evaluate "sin(a.b)" = .error (.valueError "Attribute access is not allowed")
    ∧ evaluate "a[0]" = .error (.valueError "Subscription is not allowed")
    ∧ evaluate "\x27abc\x27" = .error (.valueError "String literals are not allowed")
    ∧ evaluate "1 | 2" = .error (.valueError "Binary operator BitOr is not allowed")
    ∧ evaluate "1 < 2" = .error (.valueError "Unsupported expression")
    ∧ evaluate "1 and 2" = .error (.valueError "Unsupported expression") := by
  refine ⟨?_, ?_, rfl, rfl, rfl, rfl, rfl, rfl⟩
  · intro t h
    have hw := walk_finds_forbidden t h
    cases hwc : walkCheck t with
    | none => rw [hwc] at hw; simp at hw
    | some e =>
      refine ⟨e, ?_, ?_⟩
      · simp [evaluateAst, hwc]
      · simp [evaluateAstTr, hwc]
  · intro t h
    cases hwc : walkCheck t with
    | some e => exact ⟨e, by simp [evaluateAst, hwc]⟩
    | none =>
      have he := badOp_eval_err t h
      cases hse : safe_evalT defaultTables t with
      | error e => exact ⟨e, by simp [evaluateAst, hwc, safe_eval, hse]⟩
      | ok v => rw [hse] at he; simp [isErr] at he

theorem claim_C1_witness :
    (∃ e, evaluateAst (.attr (.name "a") "b") = .error e
      ∧ evaluateAstTr (.attr (.name "a") "b") = (.error e, []))
    ∧ (∃ e, evaluateAst (.binOp .bitOr (.constant (.int 1)) (.constant (.int 2))) =
        .error e) :=
  ⟨claim_C1.1 (.attr (.name "a") "b") rfl,
   claim_C1.2.1 (.binOp .bitOr (.constant (.int 1)) (.constant (.int 2))) rfl⟩

/-- **C2.** Division or modulo with a zero divisor fails with the typed,
distinguishable `ZeroDivisionError` (the spec's `MathDomainError`): for any
operands evaluating to a numeric dividend and a zero divisor, `/`, `//` and
`%` produce `ZeroDivisionError`, and `evaluate "1/0"` produces exactly
`ZeroDivisionError "division by zero"` — a typed error value, not an
unstructured failure or a crash. -/
theorem claim_C2 :
    (∀ op, op ∈ [BinKind.div, BinKind.floorDiv, BinKind.mod] →
      ∀ (l r : PyAst) (vl vr : Value),
        safe_eval l = .ok vl → vl.toNum.isSome = true →
        safe_eval r = .ok vr → vr.isZeroNum = true →
        ∃ msg, safe_eval (.binOp op l r) = .error (.zeroDivisionError msg))
    ∧ evaluate "1/0" = .error (.zeroDivisionError "division by zero") := by
  refine ⟨?_, rfl⟩
  intro op hop l r vl vr hl hnum hr hz
  fin_cases hop
  · obtain ⟨msg, hm⟩ := pyTrueDiv_zero vl vr hnum hz
    exact ⟨msg, by rw [show safe_eval (.binOp .div l r) =
      safe_evalT defaultTables (.binOp .div l r) from rfl,
      binop_dispatch .div pyTrueDiv rfl l r vl vr hl hr]; exact hm⟩
  · obtain ⟨msg, hm⟩ := pyFloorDiv_zero vl vr hnum hz
    exact ⟨msg, by rw [show safe_eval (.binOp .floorDiv l r) =
      safe_evalT defaultTables (.binOp .floorDiv l r) from rfl,
      binop_dispatch .floorDiv pyFloorDiv rfl l r vl vr hl hr]; exact hm⟩
  · obtain ⟨msg, hm⟩ := pyMod_zero vl vr hnum hz
    exact ⟨msg, by rw [show safe_eval (.binOp .mod l r) =
      safe_evalT defaultTables (.binOp .mod l r) from rfl,
      binop_dispatch .mod pyMod rfl l r vl vr hl hr]; exact hm⟩

theorem claim_C2_witness :
    ∃ msg, safe_eval (.binOp .div (.constant (.int 1)) (.constant (.int 0))) =
      .error (.zeroDivisionError msg) :=
  claim_C2.1 .div (by decide) (.constant (.int 1)) (.constant (.int 0))
    (.int 1) (.int 0) rfl rfl rfl rfl

/-- **C3.** For numeric operands and each of the seven whitelisted binary
operators, the evaluator's result on a `BinOp` node equals applying the host
operator directly to the two evaluated operands, and
`evaluate "2 + 3*4" = 14`. -/
theorem claim_C3 :
    (∀ op, op ∈ [BinKind.add, BinKind.sub, BinKind.mult, BinKind.div,
        BinKind.floorDiv, BinKind.mod, BinKind.pow] →
      ∀ a b : ConstVal, a.isNum = true → b.isNum = true →
        safe_eval (.binOp op (.constant a) (.constant b)) =
          hostBinOp op a.toValue b.toValue)
    ∧ evaluate "2 + 3*4" = .ok (.int 14) := by
  refine ⟨?_, rfl⟩
  intro op hop a b ha hb
  have hae := const_eval_ok a ha
  have hbe := const_eval_ok b hb
  fin_cases hop
  · exact binop_dispatch .add pyAdd rfl _ _ _ _ hae hbe
  · exact binop_dispatch .sub pySub rfl _ _ _ _ hae hbe
  · exact binop_dispatch .mult pyMul rfl _ _ _ _ hae hbe
  · exact binop_dispatch .div pyTrueDiv rfl _ _ _ _ hae hbe
  · exact binop_dispatch .floorDiv pyFloorDiv rfl _ _ _ _ hae hbe
  · exact binop_dispatch .mod pyMod rfl _ _ _ _ hae hbe
  · exact binop_dispatch .pow pyPow rfl _ _ _ _ hae hbe

theorem claim_C3_witness :
    safe_eval (.binOp .add (.constant (.int 2)) (.constant (.int 3))) =
      hostBinOp .add (ConstVal.toValue (.int 2)) (ConstVal.toValue (.int 3)) :=
  claim_C3.1 .add (by decide) (.int 2) (.int 3) rfl rfl

/-- **C4.** A call to `factorial` on numeric arguments succeeds exactly when
there is exactly one argument whose evaluated value is a non-negative integer
(a float only with no fractional part), and otherwise fails with the specific
`InvalidArgument`-style `ValueError`; a single non-numeric argument also fails
(with the host `TypeError` from `float()`); and
`factorial(5) = 120`, while `factorial(-1)` and `factorial(2.5)` fail. -/
theorem claim_C4 :
    (∀ cs : List ConstVal, (∀ c ∈ cs, c.isNum = true) →
      ((∃ v, safe_eval (.call (.name "factorial") (cs.map PyAst.constant) []) = .ok v) ↔
        (∃ c, cs = [c] ∧ c.isNonNegInt = true))
      ∧ ((∀ c, cs = [c] → c.isNonNegInt = false) →
          safe_eval (.call (.name "factorial") (cs.map PyAst.constant) []) =
            .error (.valueError "factorial() requires a single non-negative integer")))
    ∧ (∀ v : Value, v.toNum = none →
        factorialCheck [v] =
          .error (.typeError "float() argument must be a string or a real number"))
    ∧ evaluate "factorial(5)" = .ok (.int 120)
    ∧ evaluate "factorial(-1)" =
        .error (.valueError "factorial() requires a single non-negative integer")
    ∧ evaluate "factorial(2.5)" =
        .error (.valueError "factorial() requires a single non-negative integer") := by
  refine ⟨?_, ?_, rfl, rfl, rfl⟩
  · intro cs hnum
    have hlook : List.lookup "factorial" ALLOWED_NAMES = some (.func "factorial") := rfl
    have hargs := constList_eval_ok cs hnum
    have hcall : safe_eval (.call (.name "factorial") (cs.map PyAst.constant) []) =
        factorialCheck (cs.map ConstVal.toValue) := by
      simp [safe_eval, safe_evalT, defaultTables_names, hlook, Value.isCallable,
        hargs, exc_bind_ok]
    rw [hcall]
    cases cs with
    | nil =>
      refine ⟨⟨fun h => ?_, fun h => ?_⟩, fun _ => rfl⟩
      · obtain ⟨v, hv⟩ := h
        simp only [List.map] at hv
        exact absurd hv (by simp [factorialCheck])
      · obtain ⟨c, hc, _⟩ := h
        simp at hc
    | cons c rest =>
      cases rest with
      | nil =>
        obtain ⟨hsucc, hfail⟩ := factorialCheck_single_num c (hnum c (by simp))
        refine ⟨⟨fun h => ?_, fun h => ?_⟩, fun hall => ?_⟩
        · obtain ⟨v, hv⟩ := h
          cases hnn : c.isNonNegInt with
          | true => exact ⟨c, rfl, hnn⟩
          | false =>
            rw [show List.map ConstVal.toValue [c] = [c.toValue] from rfl,
              hfail hnn] at hv
            exact absurd hv (by simp)
        · obtain ⟨c2, hc2, hcn⟩ := h
          have : c = c2 := by simpa using hc2
          subst this
          simpa using hsucc hcn
        · have := hall c rfl
          simpa using hfail this
      | cons c2 rest2 =>
        refine ⟨⟨fun h => ?_, fun h => ?_⟩, fun _ => rfl⟩
        · obtain ⟨v, hv⟩ := h
          exact absurd hv (by simp [factorialCheck])
        · obtain ⟨c3, hc3, _⟩ := h
          simp at hc3
  · intro v hv
    simp [factorialCheck, pyFloatFn, hv, exc_bind_err]

theorem claim_C4_witness :
    (∃ v, safe_eval (.call (.name "factorial")
        ([ConstVal.int 5].map PyAst.constant) []) = .ok v)
    ∧ factorialCheck [.tuple []] =
        .error (.typeError "float() argument must be a string or a real number") :=
  ⟨((claim_C4.1 [ConstVal.int 5] (by decide)).1).2 ⟨.int 5, rfl, by decide⟩,
   claim_C4.2.1 (.tuple []) rfl⟩

/-- **C5 (amended).** A bare `Identifier` whose name is in the whitelist
evaluates to the stored value itself — for a function name that is the
callable value, not an error (contrary to the original claim, which
`claim_C5_counterexample` refutes); only names absent from the whitelist fail,
with a `ValueError` naming the identifier.  In particular `evaluate "sin"`
returns the callable `sin`. -/
theorem claim_C5 :
    (∀ (s : String) (v : Value), List.lookup s ALLOWED_NAMES = some v →
      safe_eval (.name s) = .ok v)
    ∧ (∀ s : String, List.lookup s ALLOWED_NAMES = none →
      safe_eval (.name s) = .error (.valueError ("Name " ++ s ++ " is not allowed")))
    ∧ evaluate "sin" = .ok (.func "sin") := by
  refine ⟨?_, ?_, rfl⟩
  · intro s v h
    simp [safe_eval, safe_evalT, defaultTables_names, h]
  · intro s h
    simp [safe_eval, safe_evalT, defaultTables_names, h]

/-- **C5, original claim refuted:** evaluating the bare whitelisted function
identifier `sin` does not fail — it returns the callable itself. -/
theorem claim_C5_counterexample :
    evaluate "sin" = .ok (.func "sin") := rfl

theorem claim_C5_witness :
    safe_eval (.name "sin") = .ok (.func "sin")
    ∧ safe_eval (.name "nosuch") =
        .error (.valueError ("Name " ++ "nosuch" ++ " is not allowed")) :=
  ⟨claim_C5.1 "sin" (.func "sin") rfl, claim_C5.2.1 "nosuch" rfl⟩

/-- **C6.** Every call expression carrying keyword arguments is rejected with
an evaluation error — never a generic syntax error and never an invocation:
any `Call` node with a non-empty keyword list fails, and
`round(1.5, ndigits=0)` fails with the specific keyword-arguments
`ValueError`. -/
theorem claim_C6 :
    (∀ (fn : PyAst) (args : List PyAst) (kws : List (String × PyAst)), kws ≠ [] →
      ∃ e, safe_eval (.call fn args kws) = .error e)
    ∧ evaluate "round(1.5, ndigits=0)" =
        .error (.valueError "Keyword arguments are not supported") := by
  refine ⟨?_, rfl⟩
  intro fn args kws hk
  have hkemp : kws.isEmpty = false := by
    cases kws with
    | nil => simp at hk
    | cons a r => rfl
  cases fn
  case name fname =>
    cases hlook : List.lookup fname ALLOWED_NAMES with
    | none =>
      exact ⟨.valueError ("Function " ++ fname ++ " is not allowed"),
        by simp [safe_eval, safe_evalT, defaultTables_names, hlook]⟩
    | some v =>
      cases hc : v.isCallable with
      | false =>
        exact ⟨.valueError ("Function " ++ fname ++ " is not allowed"),
          by simp [safe_eval, safe_evalT, defaultTables_names, hlook, hc]⟩
      | true =>
        cases hargs : safe_evalListT defaultTables args with
        | error e =>
          exact ⟨e, by simp [safe_eval, safe_evalT, defaultTables_names, hlook, hc,
            hargs, exc_bind_err]⟩
        | ok avs =>
          exact ⟨.valueError "Keyword arguments are not supported",
            by simp [safe_eval, safe_evalT, defaultTables_names, hlook, hc,
              hargs, hkemp, exc_bind_ok]⟩
  all_goals exact ⟨.valueError "Only direct function calls are allowed", rfl⟩

theorem claim_C6_witness :
    ∃ e, safe_eval (.call (.name "round") [.constant (.float (.finite ⟨15, 10⟩))]
      [("ndigits", .constant (.int 0))]) = .error e :=
  claim_C6.1 (.name "round") [.constant (.float (.finite ⟨15, 10⟩))]
    [("ndigits", .constant (.int 0))] (by simp)

/-- **C7.** The host grammar makes power bind tighter than a unary minus on
its left operand — `-2**2` parses as `-(2**2)` and evaluates to `-4` — and
power is right-associative: `2**3**2` parses as `2**(3**2)` and evaluates to
`512`. -/
theorem claim_C7 :
    pyParse "-2**2" =
      .ok (.expression (.unaryOp .usub
        (.binOp .pow (.constant (.int 2)) (.constant (.int 2)))))
    ∧ evaluate "-2**2" = .ok (.int (-4))
    ∧ pyParse "2**3**2" =
      .ok (.expression (.binOp .pow (.constant (.int 2))
        (.binOp .pow (.constant (.int 3)) (.constant (.int 2)))))
    ∧ evaluate "2**3**2" = .ok (.int 512) :=
  ⟨rfl, rfl, rfl, rfl⟩

/-- **C8.** `evaluate` is deterministic and stateless: in the state-passing
embedding (whose state is the whitelist tables, the only module-level data the
function can touch), every call returns its state unchanged, the result of a
call is unaffected by any other evaluation run before it, evaluating the same
text twice yields identical results, and on the module's actual tables the
state-passing call coincides with `evaluate`. -/
theorem claim_C8 :
    ∀ (st : Tables) (t u : String),
      (evaluateState st t).2 = st
      ∧ (evaluateState ((evaluateState st u).2) t).1 = (evaluateState st t).1
      ∧ (evaluateState ((evaluateState st t).2) t).1 = (evaluateState st t).1
      ∧ evaluateState defaultTables t = (evaluate t, defaultTables) :=
  fun _ _ _ => ⟨rfl, rfl, rfl, rfl⟩

/-- **C9.** Boolean literals are accepted as numeric constants at the public
interface: the constant check admits any value of integer type and Python's
`bool` is a subtype of `int`, so `evaluate "True"` returns `True` (numerically
1) and `evaluate "True + True"` returns `2`. -/
theorem claim_C9 :
    evaluate "True" = .ok (.bool true)
    ∧ evaluate "True + True" = .ok (.int 2)
    ∧ (∀ b : Bool, safe_eval (.constant (.bool b)) = .ok (.bool b)) :=
  ⟨rfl, rfl, fun _ => rfl⟩

/-- **C10.** A top-level comma expression is reachable through the public
interface and evaluates to a tuple: whenever every element of a `Tuple` node
individually evaluates to a value, the node evaluates to the ordered tuple of
those values, and `evaluate "1, 2+3"` returns the tuple `(1, 5)`. -/
theorem claim_C10 :
    (∀ (elts : List PyAst) (vs : List Value),
      List.map safe_eval elts = List.map Except.ok vs →
      safe_eval (.tuple elts) = .ok (.tuple vs))
    ∧ evaluate "1, 2+3" = .ok (.tuple [.int 1, .int 5]) := by
  refine ⟨?_, rfl⟩
  intro elts vs h
  have hlist := evalList_of_pointwise elts vs h
  simp [safe_eval, safe_evalT, hlist, exc_bind_ok]

theorem claim_C10_witness :
    safe_eval (.tuple [.constant (.int 1), .constant (.int 2)]) =
      .ok (.tuple [.int 1, .int 2]) :=
  claim_C10.1 [.constant (.int 1), .constant (.int 2)] [.int 1, .int 2] rfl
